import Mathlib

/-!
Verification development for the proactive-message background worker
(`src/background-worker.js`).  The worker is shallowly embedded below:
pure helpers become Lean functions, the localStorage / sessionStorage
state becomes explicit record state, the browser timer loop becomes a
step function on that state, and the external fetch is a parameter
(an opaque outcome, as the design document treats it).
-/

namespace Worker

/-- JSON values as produced by `JSON.parse`.  A number is kept exactly as
a mantissa `m` and a decimal exponent `e` (value `m * 10^e`); the worker
never branches on a numeric value, so double rounding is immaterial. -/
inductive Json where
  | null : Json
  | bool (b : Bool) : Json
  | num (m : Int) (e : Int) : Json
  | str (s : String) : Json
  | arr (elems : List Json) : Json
  | obj (fields : List (String × Json)) : Json

/-- Structural characters of the JSON grammar, spelled via code points. -/
def quoteC : Char := Char.ofNat 34

def backslashC : Char := Char.ofNat 92

def lbraceC : Char := Char.ofNat 123

def rbraceC : Char := Char.ofNat 125

/-- JSON insignificant whitespace: space, tab, line feed, carriage return. -/
def isJsonWs (c : Char) : Bool :=
  c == ' ' || c == '\t' || c == '\n' || c == '\r'

def skipWs : List Char → List Char
  | [] => []
  | c :: rest => if isJsonWs c then skipWs rest else c :: rest

def hexVal (c : Char) : Option Nat :=
  if c.isDigit then some (c.toNat - 48)
  else if 'a' ≤ c ∧ c ≤ 'f' then some (c.toNat - 87)
  else if 'A' ≤ c ∧ c ≤ 'F' then some (c.toNat - 55)
  else none

/-- Body of a JSON string literal, after the opening quote.  Returns the
decoded characters and the remaining input after the closing quote.
Escapes follow the JSON grammar; a surrogate pair of two `\\u` escapes is
combined into one code point.  A lone surrogate (which a JS string can
hold but a Lean `String` cannot) is decoded as U+FFFD; no claim touches
such inputs.  The fuel argument merely bounds recursion; every step
consumes at least one character, so `length + 1` fuel always suffices. -/
def parseStringCharsF : Nat → List Char → Option (List Char × List Char)
  | 0, _ => none
  | _, [] => none
  | Nat.succ fuel, c :: rest =>
    if c = quoteC then some ([], rest)
    else if c = backslashC then
      match rest with
      | [] => none
      | e :: rest2 =>
        if e = quoteC ∨ e = backslashC ∨ e = '/' then
          match parseStringCharsF fuel rest2 with
          | some (cs, r) => some (e :: cs, r)
          | none => none
        else if e = 'b' then
          match parseStringCharsF fuel rest2 with
          | some (cs, r) => some (Char.ofNat 8 :: cs, r)
          | none => none
        else if e = 'f' then
          match parseStringCharsF fuel rest2 with
          | some (cs, r) => some (Char.ofNat 12 :: cs, r)
          | none => none
        else if e = 'n' then
          match parseStringCharsF fuel rest2 with
          | some (cs, r) => some ('\n' :: cs, r)
          | none => none
        else if e = 'r' then
          match parseStringCharsF fuel rest2 with
          | some (cs, r) => some ('\r' :: cs, r)
          | none => none
        else if e = 't' then
          match parseStringCharsF fuel rest2 with
          | some (cs, r) => some ('\t' :: cs, r)
          | none => none
        else if e = 'u' then
          match rest2 with
          | a :: b :: c2 :: d :: rest3 =>
            match hexVal a, hexVal b, hexVal c2, hexVal d with
            | some ha, some hb, some hc, some hd =>
              let n := ((ha * 16 + hb) * 16 + hc) * 16 + hd
              if 0xD800 ≤ n ∧ n ≤ 0xDBFF then
                match rest3 with
                | b1 :: u1 :: a2 :: b2 :: c3 :: d2 :: rest4 =>
                  if b1 = backslashC ∧ u1 = 'u' then
                    match hexVal a2, hexVal b2, hexVal c3, hexVal d2 with
                    | some ha2, some hb2, some hc2, some hd2 =>
                      let n2 := ((ha2 * 16 + hb2) * 16 + hc2) * 16 + hd2
                      if 0xDC00 ≤ n2 ∧ n2 ≤ 0xDFFF then
                        match parseStringCharsF fuel rest4 with
                        | some (cs, r) =>
                          some (Char.ofNat (0x10000 + (n - 0xD800) * 0x400 + (n2 - 0xDC00)) :: cs, r)
                        | none => none
                      else
                        match parseStringCharsF fuel rest3 with
                        | some (cs, r) => some (Char.ofNat 0xFFFD :: cs, r)
                        | none => none
                    | _, _, _, _ => none
                  else
                    match parseStringCharsF fuel rest3 with
                    | some (cs, r) => some (Char.ofNat 0xFFFD :: cs, r)
                    | none => none
                | _ =>
                  match parseStringCharsF fuel rest3 with
                  | some (cs, r) => some (Char.ofNat 0xFFFD :: cs, r)
                  | none => none
              else if 0xDC00 ≤ n ∧ n ≤ 0xDFFF then
                match parseStringCharsF fuel rest3 with
                | some (cs, r) => some (Char.ofNat 0xFFFD :: cs, r)
                | none => none
              else
                match parseStringCharsF fuel rest3 with
                | some (cs, r) => some (Char.ofNat n :: cs, r)
                | none => none
            | _, _, _, _ => none
          | _ => none
        else none
    else if c.toNat < 32 then none
    else
      match parseStringCharsF fuel rest with
      | some (cs, r) => some (c :: cs, r)
      | none => none

/-- Entry point for string bodies, supplying ample fuel. -/
def parseStringChars (cs : List Char) : Option (List Char × List Char) :=
  parseStringCharsF (cs.length + 1) cs

def digitsToNat (ds : List Char) : Nat :=
  ds.foldl (fun acc c => acc * 10 + (c.toNat - 48)) 0

def takeDigits : List Char → List Char × List Char
  | [] => ([], [])
  | c :: rest =>
    if c.isDigit then
      let p := takeDigits rest
      (c :: p.1, p.2)
    else ([], c :: rest)

/-- Assemble a parsed JSON number from its parts, handling the optional
exponent.  The value is `m * 10^e`. -/
def finishNum (neg : Bool) (intDs fracDs : List Char) (rest : List Char) :
    Option ((Int × Int) × List Char) :=
  let mNat : Nat := digitsToNat (intDs ++ fracDs)
  let m : Int := if neg then -(mNat : Int) else (mNat : Int)
  match rest with
  | e :: r2 =>
    if e = 'e' ∨ e = 'E' then
      let sp : Bool × List Char :=
        match r2 with
        | s :: r3 =>
          if s = '+' then (false, r3)
          else if s = '-' then (true, r3)
          else (false, r2)
        | [] => (false, r2)
      let q := takeDigits sp.2
      if q.1 = [] then none
      else
        let ev : Int := if sp.1 then -(digitsToNat q.1 : Int) else (digitsToNat q.1 : Int)
        some ((m, ev - (fracDs.length : Int)), q.2)
    else some ((m, 0 - (fracDs.length : Int)), rest)
  | [] => some ((m, 0 - (fracDs.length : Int)), [])

/-- JSON number grammar: optional minus, integer part without a leading
zero (or a single zero), optional fraction, optional exponent. -/
def parseNumber (cs : List Char) : Option ((Int × Int) × List Char) :=
  let sp : Bool × List Char :=
    match cs with
    | c :: rest => if c = '-' then (true, rest) else (false, cs)
    | [] => (false, cs)
  match sp.2 with
  | [] => none
  | c :: rest =>
    if ¬ c.isDigit then none
    else
      let ip : List Char × List Char :=
        if c = '0' then ([c], rest)
        else
          let p := takeDigits rest
          (c :: p.1, p.2)
      match ip.2 with
      | p :: r2 =>
        if p = '.' then
          let q := takeDigits r2
          if q.1 = [] then none else finishNum sp.1 ip.1 q.1 q.2
        else finishNum sp.1 ip.1 [] ip.2
      | [] => finishNum sp.1 ip.1 [] []

mutual

/-- One JSON value, leading whitespace allowed.  The fuel argument only
bounds recursion depth; `Json.parse` supplies fuel linear in the input
length, which is ample because every two recursive steps consume at
least one input character. -/
def parseValueAux : Nat → List Char → Option (Json × List Char)
  | 0, _ => none
  | Nat.succ fuel, input =>
    match skipWs input with
    | [] => none
    | c :: rest =>
      if c = quoteC then
        match parseStringChars rest with
        | some (cs, r) => some (Json.str (String.mk cs), r)
        | none => none
      else if c = lbraceC then parseObjectMembers fuel (skipWs rest) true []
      else if c = '[' then parseArrayItems fuel (skipWs rest) true []
      else if c = 't' then
        match rest with
        | 'r' :: 'u' :: 'e' :: r => some (Json.bool true, r)
        | _ => none
      else if c = 'f' then
        match rest with
        | 'a' :: 'l' :: 's' :: 'e' :: r => some (Json.bool false, r)
        | _ => none
      else if c = 'n' then
        match rest with
        | 'u' :: 'l' :: 'l' :: r => some (Json.null, r)
        | _ => none
      else
        match parseNumber (c :: rest) with
        | some (me, r) => some (Json.num me.1 me.2, r)
        | none => none

/-- Items of a JSON array: the input starts after `[` (whitespace
skipped); `first` is true before any element has been read. -/
def parseArrayItems : Nat → List Char → Bool → List Json → Option (Json × List Char)
  | 0, _, _, _ => none
  | Nat.succ fuel, input, first, acc =>
    match input with
    | [] => none
    | c :: rest =>
      if c = ']' ∧ first then some (Json.arr [], rest)
      else
        match parseValueAux fuel input with
        | some (v, r) =>
          match skipWs r with
          | ',' :: r2 => parseArrayItems fuel (skipWs r2) false (acc ++ [v])
          | d :: r2 =>
            if d = ']' then some (Json.arr (acc ++ [v]), r2) else none
          | [] => none
        | none => none

/-- Members of a JSON object: the input starts after the opening brace
(whitespace skipped).  Duplicate keys are kept in order; lookup takes the
last occurrence, matching JS object-literal overwrite. -/
def parseObjectMembers : Nat → List Char → Bool → List (String × Json) →
    Option (Json × List Char)
  | 0, _, _, _ => none
  | Nat.succ fuel, input, first, acc =>
    match input with
    | [] => none
    | c :: rest =>
      if c = rbraceC ∧ first then some (Json.obj [], rest)
      else if c = quoteC then
        match parseStringChars rest with
        | some (cs, r) =>
          match skipWs r with
          | d :: r2 =>
            if d = ':' then
              match parseValueAux fuel r2 with
              | some (v, r3) =>
                let acc2 := acc ++ [(String.mk cs, v)]
                match skipWs r3 with
                | ',' :: r4 =>
                  parseObjectMembers fuel (skipWs r4) false acc2
                | e :: r4 =>
                  if e = rbraceC then some (Json.obj acc2, r4) else none
                | [] => none
              | none => none
            else none
          | [] => none
        | none => none
      else none

end

/-- Model of `JSON.parse`: a single JSON text with optional surrounding
whitespace; anything else (including trailing garbage) fails. -/
def Json.parse (s : String) : Option Json :=
  match parseValueAux (s.toList.length * 4 + 8) s.toList with
  | some (j, rest) => if skipWs rest = [] then some j else none
  | none => none

example : Json.parse "null" = some Json.null := rfl

example : Json.parse "  true " = some (Json.bool true) := rfl

example : Json.parse "hello" = none := rfl

example : Json.parse "\x7b\"foo\":1\x7d" =
    some (Json.obj [("foo", Json.num 1 0)]) := rfl

example : Json.parse "\x7b\"replies\":[\"A\",\"B\"]\x7d" =
    some (Json.obj [("replies", Json.arr [Json.str "A", Json.str "B"])]) := rfl

example : Json.parse "[1, -2.5e1, []]" =
    some (Json.arr [Json.num 1 0, Json.num (-25) 0, Json.arr []]) := rfl

example : Json.parse "\"a\\nb\"" = some (Json.str "a\nb") := rfl

example : Json.parse "01" = none := rfl

example : Json.parse "\x7b\"a\":1,\"a\":2\x7d" =
    some (Json.obj [("a", Json.num 1 0), ("a", Json.num 2 0)]) := rfl

/-- A JS value as it flows through the worker: either `undefined` or a
JSON value (everything the worker handles comes from `JSON.parse` /
`res.json()`, so no functions or symbols can occur). -/
inductive JsVal where
  | undefined : JsVal
  | json (j : Json) : JsVal

/-- Property lookup on a JSON object: in JS, a duplicate key in a parsed
object literal keeps the last value. -/
def lookupFieldLast (fs : List (String × Json)) (k : String) : Option Json :=
  fs.foldl (fun acc p => if p.1 = k then some p.2 else acc) none

/-- JS property access `v[k]` for a non-index key: throws (`.error`) on
`undefined` and `null`, yields the field (or `undefined`) on an object,
and `undefined` on any other primitive or an array (none of the keys the
worker reads exists on those). -/
def jsGetProp : JsVal → String → Except Unit JsVal
  | .undefined, _ => .error ()
  | .json Json.null, _ => .error ()
  | .json (Json.obj fs), k =>
    .ok (match lookupFieldLast fs k with
         | some v => .json v
         | none => .undefined)
  | .json _, _ => .ok .undefined

/-- JS element access `v[0]`: throws on `undefined`/`null`; on an array
the first element (or `undefined`); on a string its first character; on
an object the field named "0"; `undefined` on other primitives. -/
def jsGetIndex0 : JsVal → Except Unit JsVal
  | .undefined => .error ()
  | .json Json.null => .error ()
  | .json (Json.arr xs) =>
    .ok (match xs with
         | x :: _ => .json x
         | [] => .undefined)
  | .json (Json.str s) =>
    .ok (match s.toList with
         | c :: _ => .json (Json.str (String.mk [c]))
         | [] => .undefined)
  | .json (Json.obj fs) =>
    .ok (match lookupFieldLast fs "0" with
         | some v => .json v
         | none => .undefined)
  | .json _ => .ok .undefined

/-- JS truthiness of the values the worker can hold. -/
def jsTruthy : JsVal → Bool
  | .undefined => false
  | .json Json.null => false
  | .json (Json.bool b) => b
  | .json (Json.num m _) => m != 0
  | .json (Json.str s) => s != ""
  | .json (Json.arr _) => true
  | .json (Json.obj _) => true

/-- Decimal rendering of a parsed JSON number.  JS prints doubles with
its own shortest-roundtrip algorithm; no theorem below depends on how a
number is rendered (a numeric reply degrades to the raw-fallback branch
whether or not its rendering reparses), so a plain mantissa/exponent
lexeme stands in. -/
def numLexeme (m e : Int) : String :=
  if e = 0 then toString m else toString m ++ "e" ++ toString e

mutual

/-- JS `String(v)` coercion for parsed-JSON values: `Array.prototype.toString`
joins the rendered elements with commas (with `null` rendered empty), an
object renders as "[object Object]". -/
def jsToString : Json → String
  | Json.null => "null"
  | Json.bool true => "true"
  | Json.bool false => "false"
  | Json.num m e => numLexeme m e
  | Json.str s => s
  | Json.arr xs => String.intercalate "," (jsToStringElems xs)
  | Json.obj _ => "[object Object]"

def jsToStringElems : List Json → List String
  | [] => []
  | Json.null :: rest => "" :: jsToStringElems rest
  | x :: rest => jsToString x :: jsToStringElems rest

end

def jsvalToString : JsVal → String
  | .undefined => "undefined"
  | .json j => jsToString j

/-- Whitespace set of `String.prototype.trim` (ECMAScript WhiteSpace and
LineTerminator code points). -/
def isJsWhitespaceChar (c : Char) : Bool :=
  let n := c.toNat
  n == 9 || n == 10 || n == 11 || n == 12 || n == 13 || n == 32 ||
  n == 160 || n == 0x1680 || (decide (0x2000 ≤ n) && decide (n ≤ 0x200A)) ||
  n == 0x202F || n == 0x205F || n == 0x3000 || n == 0x2028 || n == 0x2029 ||
  n == 0xFEFF

/-- `s.trim() === ""` holds exactly when every character is JS whitespace. -/
def jsTrimEmpty (s : String) : Bool :=
  s.toList.all isJsWhitespaceChar

/-- The `replies` check of `triggerGlobalAiReply`:
`parsedReply && Array.isArray(parsedReply.replies)`.  A parsed object is
always truthy, and no other parsed value has a `replies` property, so the
conjunction holds exactly when the value is an object whose (last)
`replies` field is an array. -/
def repliesField : Json → Option (List Json)
  | Json.obj fs =>
    match lookupFieldLast fs "replies" with
    | some (Json.arr xs) => some xs
    | _ => none
  | _ => none

/-- The filter `parsedReply.replies.filter(m => m.trim() !== "")`: keeps
the non-blank strings; if any entry is not a string, `m.trim` is not a
function and the filter throws, which the surrounding `catch` turns into
the raw-fallback branch — modelled as `none`. -/
def filterNonBlank : List Json → Option (List String)
  | [] => some []
  | Json.str s :: rest =>
    (filterNonBlank rest).map (fun ms => if jsTrimEmpty s then ms else s :: ms)
  | _ :: _ => none

/-- Outcome of the reply-shape analysis in `triggerGlobalAiReply`
(lines 101–110): either the filtered list of structured replies, or the
raw-fallback (JSON parse failure, shape mismatch, or a throwing filter). -/
inductive ReplyShape where
  | structured (ms : List String) : ReplyShape
  | rawFallback : ReplyShape

def classifyReply (s : String) : ReplyShape :=
  match Json.parse s with
  | none => .rawFallback
  | some j =>
    match repliesField j with
    | none => .rawFallback
    | some xs =>
      match filterNonBlank xs with
      | none => .rawFallback
      | some ms => .structured ms

/-- Reply parsing for a raw response string: the structured replies when
the shape matches, otherwise the whole raw string as the single reply. -/
def parseReplyMessages (raw : String) : List String :=
  match classifyReply raw with
  | .structured ms => ms
  | .rawFallback => [raw]

/-- Reply parsing at the JS-value level (`rawReply` is whatever
`data.choices[0].message.content` held; `JSON.parse` coerces its argument
to a string first).  In the structured branch the entries are strings; in
the fallback branch the original value itself is pushed. -/
def parseReplyValues (raw : JsVal) : List JsVal :=
  match classifyReply (jsvalToString raw) with
  | .structured ms => ms.map (fun m => JsVal.json (Json.str m))
  | .rawFallback => [raw]

example : parseReplyMessages "\x7b\"replies\":[\"A\",\"B\"]\x7d" = ["A", "B"] := rfl

example : parseReplyMessages "hello" = ["hello"] := rfl

example : parseReplyMessages "\x7b\"replies\":[\"\",\"  \",\"C\"]\x7d" = ["C"] := rfl

example : parseReplyMessages "\x7b\"foo\":1\x7d" = ["\x7b\"foo\":1\x7d"] := rfl

example : parseReplyMessages "\x7b\"replies\":[1]\x7d" = ["\x7b\"replies\":[1]\x7d"] := rfl

example : parseReplyMessages "null" = ["null"] := rfl

example : parseReplyMessages "\x7b\"replies\":\"A\"\x7d" = ["\x7b\"replies\":\"A\"\x7d"] := rfl

/-! ## State model: localStorage, sessionStorage, conversations -/

/-- Association-list update with JS object-assignment semantics: replace
the value in place if the key exists, otherwise append the binding. -/
def setKey {α : Type} : List (String × α) → String → α → List (String × α)
  | [], k, v => [(k, v)]
  | p :: rest, k, v =>
    if p.1 = k then (k, v) :: rest else p :: setKey rest k v

/-- Association-list lookup (first binding; the worker's stores keep keys
unique, as JS objects do). -/
def lookupKey {α : Type} : List (String × α) → String → Option α
  | [], _ => none
  | p :: rest, k => if p.1 = k then some p.2 else lookupKey rest k

/-- JS `delete counts[k]`. -/
def eraseKey {α : Type} : List (String × α) → String → List (String × α)
  | [], _ => []
  | p :: rest, k =>
    if p.1 = k then eraseKey rest k else p :: eraseKey rest k

/-- A chat message as stored in the `chats` map.  The id is a fresh
number (`Date.now() + Math.random()` in the source — modelled through an
injected id supply); content is whatever JS value was pushed. -/
structure Message where
  id : Nat
  role : String
  content : JsVal
  timestamp : Nat

/-- Per-conversation settings.  Only the `proactive` flag is read by the
worker; any other fields of the settings object are opaque to it. -/
structure Settings where
  proactive : Bool

/-- A contact record; `name`, `persona` and `note` may be absent
(`undefined`), defaulted with `||` in the prompt builder. -/
structure Contact where
  id : String
  name : Option String
  persona : Option String
  note : Option String

/-- The localStorage keys the worker reads and writes, with the JSON
(de)serialisation of the stored maps abstracted to typed access: the
key/value store is an external collaborator, and the worker always
round-trips full maps through it. -/
structure Store where
  chatSettings : List (String × Settings)
  contacts : List Contact
  chats : List (String × List Message)
  unreadCounts : List (String × Nat)
  apiUrl : Option String
  apiKey : Option String
  selectedModel : Option String
  userPersona : Option String
  temperature : Option String

/-! ## Unread ledger (`getUnreadCounts` / `incrementUnreadCount` /
`clearUnreadCount`, source lines 16–38) -/

def getUnreadCounts (st : Store) : List (String × Nat) :=
  st.unreadCounts

def saveUnreadCounts (st : Store) (counts : List (String × Nat)) : Store :=
  { st with unreadCounts := counts }

/-- `counts[contactId] || 0`: an absent key reads as 0. -/
def readCount (counts : List (String × Nat)) (contactId : String) : Nat :=
  (lookupKey counts contactId).getD 0

/-- `incrementUnreadCount(contactId, messageCount = 1)`. -/
def incrementUnreadCount (st : Store) (contactId : String)
    (messageCount : Nat := 1) : Store :=
  let counts := getUnreadCounts st
  saveUnreadCounts st
    (setKey counts contactId (readCount counts contactId + messageCount))

/-- `clearUnreadCount(contactId)`: the guard `if (counts[contactId])` is
a JS truthiness test, so the branch runs only when the key is present
with a non-zero count; only then is the key deleted and the map saved. -/
def clearUnreadCount (st : Store) (contactId : String) : Store :=
  let counts := getUnreadCounts st
  if readCount counts contactId ≠ 0 then
    saveUnreadCounts st (eraseKey counts contactId)
  else st

/-! ## The external completion call (`callGlobalAiApi`, lines 137–211) -/

/-- Outcome of the `fetch`: the promise rejects (network failure), or a
response arrives with an HTTP status (`ok`), a status text, and a body
(`none` when the body is not valid JSON, in which case `res.json()`
throws). -/
inductive FetchOutcome where
  | reject (msg : String) : FetchOutcome
  | response (ok : Bool) (statusText : String) (body : Option Json) : FetchOutcome

/-- `x || dflt` for a string read from localStorage (`null` or `""` both
fall back). -/
def jsOrElse (v : Option String) (dflt : String) : String :=
  match v with
  | some s => if s = "" then dflt else s
  | none => dflt

/-- A nullable string from localStorage is falsy when absent or empty. -/
def jsFalsyStr (v : Option String) : Bool :=
  match v with
  | some s => s == ""
  | none => true

/-- JS `s.trim()`. -/
def jsTrim (s : String) : String :=
  String.mk (((s.toList.dropWhile isJsWhitespaceChar).reverse.dropWhile
    isJsWhitespaceChar).reverse)

/-- The system-instruction block built from the character profile
(source lines 158–182; literal braces written via code points). -/
def buildSystemPrompt (charName persona userPersona note nowLocale : String) :
    String :=
  "你现在扮演 " ++ charName ++ "。你正在通过手机短信与 User 聊天。当前现实时间是: " ++
  nowLocale ++ "。\n\n[角色设定]:\n" ++ persona ++ "\n\n" ++
  (if userPersona ≠ "" then "[关于 User 的信息]:\n" ++ userPersona else "") ++
  "\n\n" ++
  (if note ≠ "" then "[备注/强制指令]:\n" ++ note else "") ++
  "\n\n[回复规则 - 你必须严格遵守]:\n" ++
  "1.  你的回复**必须**是一个 JSON 对象，且只包含一个名为 \"replies\" 的键。\n" ++
  "2.  \"replies\" 的值**必须**是一个数组，数组中包含 1 到 3 条字符串。\n" ++
  "3.  数组中的每个字符串就是一条独立的短信内容。\n" ++
  "4.  每条短信内容都必须简短、口语化，就像真人在发短信一样。\n" ++
  "5.  严禁在字符串内使用 Markdown 或任何格式化语法。\n" ++
  "6.  根据聊天上下文，决定回复 1 条还是多条。如果内容简单，就只回 1 条。如果内容复杂或情绪激动，可以回 2-3 条来模拟连续输入。\n\n" ++
  "[回复范例]:\n\x7b\n  \"replies\": [\n    \"天啊！\",\n    \"真的假的？\",\n    \"快给我看看！\"\n  ]\n\x7d"

/-- The request URL: append `/chat/completions` (dropping one trailing
slash) unless the configured URL already contains it. -/
def buildFullUrl (apiUrl : String) : String :=
  if (apiUrl.splitOn "/chat/completions").length > 1 then apiUrl
  else (if apiUrl.endsWith "/" then apiUrl.dropRight 1 else apiUrl) ++
    "/chat/completions"

/-- The POST body the worker would send; built for fidelity (the fetch
outcome itself is an external parameter). -/
structure ApiRequest where
  url : String
  model : Option String
  messages : List (String × JsVal)
  temperatureRaw : Option String

/-- `data.choices[0].message.content` on the parsed success body:
each step throws on `undefined`/`null`, and a missing final field yields
`undefined` without throwing. -/
def extractContent (data : Json) : Except Unit JsVal := do
  let choices ← jsGetProp (.json data) "choices"
  let c0 ← jsGetIndex0 choices
  let msg ← jsGetProp c0 "message"
  let content ← jsGetProp msg "content"
  return content

/-- `err.error?.message || res.statusText`: reading `.error` throws when
the parsed error body is `null`; optional chaining guards only the
`.message` step; a falsy message falls back to the status text. -/
def errMessageOf (err : Json) (statusText : String) : String :=
  match jsGetProp (.json err) "error" with
  | .error _ => "TypeError: cannot read properties of null"
  | .ok errField =>
    let msg : JsVal :=
      match errField with
      | .undefined => .undefined
      | .json Json.null => .undefined
      | v => ((jsGetProp v "message").toOption).getD .undefined
    if jsTruthy msg then jsvalToString msg else statusText

/-- `callGlobalAiApi(contactId)`: aborts before any network activity when
the endpoint or key is missing or empty, or when the contact is unknown;
otherwise the injected fetch outcome decides, with a non-success status
turned into a thrown error and a success body drilled into for the reply
text. -/
def callGlobalAiApi (st : Store) (outcome : FetchOutcome) (nowLocale : String)
    (contactId : String) : Except String JsVal :=
  if jsFalsyStr st.apiUrl || jsFalsyStr st.apiKey then
    .error "API not configured"
  else
    let history := (lookupKey st.chats contactId).getD []
    match st.contacts.find? (fun c => c.id == contactId) with
    | none => .error ("Contact with id " ++ contactId ++ " not found")
    | some charData =>
      let persona := jsOrElse charData.persona ""
      let note := jsOrElse charData.note ""
      let charName := jsOrElse charData.name "Character"
      let userPersona := jsOrElse st.userPersona ""
      let systemPrompt :=
        buildSystemPrompt charName persona userPersona note nowLocale
      let msgsToSend : List (String × JsVal) :=
        ("system", JsVal.json (Json.str (jsTrim systemPrompt))) ::
          (history.drop (history.length - 15)).map
            (fun m => (m.role, m.content))
      let _req : ApiRequest :=
        { url := buildFullUrl ((st.apiUrl).getD "")
          model := st.selectedModel
          messages := msgsToSend
          temperatureRaw := st.temperature }
      match outcome with
      | .reject msg => .error msg
      | .response ok statusText body =>
        if ok then
          match body with
          | none => .error "SyntaxError: unexpected end of JSON input"
          | some data =>
            match extractContent data with
            | .ok content => .ok content
            | .error _ => .error "TypeError: cannot read properties"
        else
          match body with
          | none => .error "SyntaxError: unexpected end of JSON input"
          | some err => .error (errMessageOf err statusText)

/-! ## Reply generation (`triggerGlobalAiReply`, lines 95–135) -/

/-- Environment of one generation attempt: the clock, the locale-rendered
clock, a fresh-id supply for the `Date.now() + Math.random()` ids, and
the outcome of this attempt's fetch. -/
structure GenEnv where
  now : Nat
  nowLocale : String
  mkId : Nat → Nat
  outcome : FetchOutcome

/-- `triggerGlobalAiReply(contactId)`: on success the parsed replies are
appended as assistant messages and the ledger is incremented by their
number; every failure of the call is swallowed by the outer catch and the
store is left untouched. -/
def triggerGlobalAiReply (env : GenEnv) (st : Store) (contactId : String) :
    Store :=
  match callGlobalAiApi st env.outcome env.nowLocale contactId with
  | .error _ => st
  | .ok rawReply =>
    let replyMessages := parseReplyValues rawReply
    if replyMessages.length > 0 then
      let allChats := st.chats
      let history := (lookupKey allChats contactId).getD []
      let newMessages := replyMessages.enum.map
        (fun p => Message.mk (env.mkId p.1) "assistant" p.2 env.now)
      let st1 := { st with
        chats := setKey allChats contactId (history ++ newMessages) }
      incrementUnreadCount st1 contactId newMessages.length
    else st

/-! ## The scheduler tick (`startGlobalProactiveCheck`, lines 43–92) -/

def PROACTIVE_CHECK_INTERVAL : Nat := 15000

def PROACTIVE_REPLY_DELAY : Nat := 300000

/-- The cooldown passed to `setTimeout` in the `finally` block. -/
def COOLDOWN_MS : Nat := 60000

/-- The sessionStorage key guarding a conversation. -/
def processingFlag (contactId : String) : String :=
  "processing_" ++ contactId

/-- Trace instrumentation of one tick: the bulk load of the three maps,
a conversation found due, a due conversation skipped by the guard, and
the start / finish of an awaited generation attempt. -/
inductive Event where
  | loadAll : Event
  | due (contactId : String) : Event
  | guardSkip (contactId : String) : Event
  | genStart (contactId : String) : Event
  | genFinish (contactId : String) : Event
deriving DecidableEq

/-- Full worker state: localStorage, the set sessionStorage flags, and
the pending `setTimeout` flag removals as (key, delay) pairs. -/
structure WorkerState where
  store : Store
  session : List String
  timeouts : List (String × Nat)

/-- Environment of one tick: page visibility, the clock, and the
per-conversation external nondeterminism (fetch outcome, id supply). -/
structure TickEnv where
  hidden : Bool
  now : Nat
  nowLocale : String
  fetchFor : String → FetchOutcome
  mkId : String → Nat → Nat

/-- The guard admission of lines 75–77, as the design document's
`tryAdmit`: fail and change nothing when the flag is set, otherwise set
the flag and succeed. -/
def tryAdmit (session : List String) (contactId : String) :
    Bool × List String :=
  if processingFlag contactId ∈ session then (false, session)
  else (true, processingFlag contactId :: session)

/-- `sessionStorage.removeItem(processingFlag)` — the timeout callback,
the design document's `release`. -/
def releaseFlag (session : List String) (contactId : String) : List String :=
  session.filter (fun k => k != processingFlag contactId)

/-- Repeated admission attempts, threading the session state. -/
def admitMany : Nat → List String → String → List Bool × List String
  | 0, session, _ => ([], session)
  | Nat.succ k, session, contactId =>
    let p := tryAdmit session contactId
    let q := admitMany k p.2 contactId
    (p.1 :: q.1, q.2)

/-- The per-conversation body of the tick loop (lines 57–90).  The
eligibility tests read the settings and chats maps loaded once at the
start of the tick (`allSettings` / `allChats`); the generation itself
re-reads the live store.  `now - lastMsg.timestamp` is JS arithmetic: a
future timestamp gives a negative difference, never above the threshold,
so truncated `Nat` subtraction branches identically. -/
def processContact (env : TickEnv) (allSettings : List (String × Settings))
    (allChats : List (String × List Message)) (ws : WorkerState)
    (contact : Contact) : WorkerState × List Event :=
  let contactId := contact.id
  match lookupKey allSettings contactId with
  | none => (ws, [])
  | some settings =>
    if settings.proactive then
      let history := (lookupKey allChats contactId).getD []
      match history.getLast? with
      | none => (ws, [])
      | some lastMsg =>
        if lastMsg.role ≠ "user" then (ws, [])
        else if env.now - lastMsg.timestamp > PROACTIVE_REPLY_DELAY then
          let flag := processingFlag contactId
          if flag ∈ ws.session then
            (ws, [Event.due contactId, Event.guardSkip contactId])
          else
            let ws1 := { ws with session := flag :: ws.session }
            let genEnv : GenEnv :=
              { now := env.now, nowLocale := env.nowLocale
                mkId := env.mkId contactId, outcome := env.fetchFor contactId }
            let store2 := triggerGlobalAiReply genEnv ws1.store contactId
            let ws2 := { ws1 with
              store := store2
              timeouts := ws1.timeouts ++ [(flag, COOLDOWN_MS)] }
            (ws2, [Event.due contactId, Event.genStart contactId,
                   Event.genFinish contactId])
        else (ws, [])
    else (ws, [])

/-- The `for (const contact of contacts)` loop: each iteration is awaited
before the next starts, so the contacts are processed strictly in list
order with the state threaded through. -/
def runContacts (env : TickEnv) (allSettings : List (String × Settings))
    (allChats : List (String × List Message)) :
    WorkerState → List Contact → WorkerState × List Event
  | ws, [] => (ws, [])
  | ws, c :: rest =>
    let p := processContact env allSettings allChats ws c
    let q := runContacts env allSettings allChats p.1 rest
    (q.1, p.2 ++ q.2)

/-- One timer tick: return immediately when the page is hidden, else load
the three maps once and run the contact loop on that snapshot. -/
def tick (env : TickEnv) (ws : WorkerState) : WorkerState × List Event :=
  if env.hidden then (ws, [])
  else
    let allSettings := ws.store.chatSettings
    let contacts := ws.store.contacts
    let allChats := ws.store.chats
    let p := runContacts env allSettings allChats ws contacts
    (p.1, Event.loadAll :: p.2)

/-- The `setInterval` loop: ticks fire unconditionally one after the
other, whatever an earlier tick did. -/
def runTicks : List TickEnv → WorkerState → WorkerState × List Event
  | [], ws => (ws, [])
  | e :: rest, ws =>
    let p := tick e ws
    let q := runTicks rest p.1
    (q.1, p.2 ++ q.2)

/-! ## Helper lemmas -/

theorem lookupKey_setKey_self {α : Type} (l : List (String × α)) (k : String)
    (v : α) : lookupKey (setKey l k v) k = some v := by
  induction l with
  | nil => simp [setKey, lookupKey]
  | cons p rest ih =>
    by_cases h : p.1 = k <;> simp [setKey, lookupKey, h, ih]

theorem lookupKey_eraseKey_self {α : Type} (l : List (String × α))
    (k : String) : lookupKey (eraseKey l k) k = none := by
  induction l with
  | nil => simp [eraseKey, lookupKey]
  | cons p rest ih =>
    by_cases h : p.1 = k <;> simp [eraseKey, lookupKey, h, ih]

theorem readCount_increment (st : Store) (contactId : String) (a : Nat) :
    readCount (incrementUnreadCount st contactId a).unreadCounts contactId =
      readCount st.unreadCounts contactId + a := by
  simp [incrementUnreadCount, saveUnreadCounts, getUnreadCounts, readCount,
    lookupKey_setKey_self]

/-- A finite sequence of increments for one conversation. -/
def applyIncrements (st : Store) (contactId : String) (sizes : List Nat) :
    Store :=
  sizes.foldl (fun s a => incrementUnreadCount s contactId a) st

theorem readCount_applyIncrements (st : Store) (contactId : String)
    (sizes : List Nat) :
    readCount (applyIncrements st contactId sizes).unreadCounts contactId =
      readCount st.unreadCounts contactId + sizes.sum := by
  induction sizes generalizing st with
  | nil => simp [applyIncrements]
  | cons a rest ih =>
    have h1 : applyIncrements st contactId (a :: rest) =
        applyIncrements (incrementUnreadCount st contactId a) contactId rest := by
      simp [applyIncrements]
    rw [h1, ih, readCount_increment, List.sum_cons]
    omega

/-! ## Claim theorems: unread ledger -/

/-- C7.  For every conversation id and every finite sequence of
increments with sizes `a1, …, an` (each ≥ 1) from any ledger state, the
final count equals the initial count (0 when the key is absent — folded
into `readCount`) plus the sum of the sizes; the result is invariant
under reordering of the sizes; and a call without an explicit size
increments by exactly 1. -/
theorem claim7_increment_additive (st : Store) (contactId : String)
    (sizes sizes' : List Nat) (_hpos : ∀ a ∈ sizes, 1 ≤ a)
    (hperm : sizes.Perm sizes') :
    readCount (applyIncrements st contactId sizes).unreadCounts contactId =
      readCount st.unreadCounts contactId + sizes.sum ∧
    readCount (applyIncrements st contactId sizes).unreadCounts contactId =
      readCount (applyIncrements st contactId sizes').unreadCounts contactId ∧
    readCount (incrementUnreadCount st contactId).unreadCounts contactId =
      readCount st.unreadCounts contactId + 1 := by
  refine ⟨readCount_applyIncrements st contactId sizes, ?_,
    readCount_increment st contactId 1⟩
  rw [readCount_applyIncrements, readCount_applyIncrements, hperm.sum_eq]

/-- Ledger fixture: a store holding only a count of 5 for "c". -/
def stFive : Store :=
  ⟨[], [], [], [("c", 5)], none, none, none, none, none⟩

theorem claim7_witness :
    (∀ a ∈ ([2, 3] : List Nat), 1 ≤ a) ∧
    readCount (applyIncrements stFive "c" [2, 3]).unreadCounts "c" =
      readCount stFive.unreadCounts "c" + 5 ∧
    readCount (applyIncrements stFive "c" [2, 3]).unreadCounts "c" =
      readCount (applyIncrements stFive "c" [3, 2]).unreadCounts "c" := by
  have h := claim7_increment_additive stFive "c" [2, 3] [3, 2]
    (by decide) (List.Perm.swap 3 2 [])
  exact ⟨by decide, h.1, h.2.1⟩

/-- Ledger fixture: a store whose ledger holds a stored zero for "c". -/
def stZero : Store :=
  ⟨[], [], [], [("c", 0)], none, none, none, none, none⟩

/-- C8 counterexample.  The claim says `clear` removes the id's key
whenever it is present; but the source guards the deletion with the JS
truthiness test `if (counts[contactId])`, so a key that is present with
a stored count of 0 is NOT removed: the call is a no-op and the key is
still present afterwards. -/
theorem claim8_counterexample :
    lookupKey stZero.unreadCounts "c" = some 0 ∧
    clearUnreadCount stZero "c" = stZero ∧
    lookupKey (clearUnreadCount stZero "c").unreadCounts "c" = some 0 :=
  ⟨rfl, rfl, rfl⟩

/-- C8 (amended).  `clear` removes the id's key entirely when it is
present with a non-zero count, so a subsequent read returns 0 by absence
of the key; when the key is absent — or present with a stored zero,
which the truthiness guard also skips — the call is a no-op and the
persisted ledger is unchanged. -/
theorem claim8_clear_amended (st : Store) (contactId : String) :
    (readCount st.unreadCounts contactId ≠ 0 →
      (clearUnreadCount st contactId).unreadCounts =
        eraseKey st.unreadCounts contactId ∧
      lookupKey (clearUnreadCount st contactId).unreadCounts contactId =
        none ∧
      readCount (clearUnreadCount st contactId).unreadCounts contactId = 0) ∧
    (readCount st.unreadCounts contactId = 0 →
      clearUnreadCount st contactId = st) := by
  constructor
  · intro h
    have hbranch : clearUnreadCount st contactId =
        saveUnreadCounts st (eraseKey (getUnreadCounts st) contactId) := by
      simp [clearUnreadCount, getUnreadCounts, h]
    refine ⟨by simp [hbranch, saveUnreadCounts, getUnreadCounts], ?_, ?_⟩
    · simp [hbranch, saveUnreadCounts, getUnreadCounts, lookupKey_eraseKey_self]
    · simp [hbranch, saveUnreadCounts, getUnreadCounts, readCount,
        lookupKey_eraseKey_self]
  · intro h
    simp [clearUnreadCount, getUnreadCounts, h]

theorem claim8_witness :
    (readCount stFive.unreadCounts "c" ≠ 0 ∧
      lookupKey (clearUnreadCount stFive "c").unreadCounts "c" = none) ∧
    (readCount stZero.unreadCounts "c" = 0 ∧
      clearUnreadCount stZero "c" = stZero) :=
  ⟨⟨by decide, ((claim8_clear_amended stFive "c").1 (by decide)).2.1⟩,
   ⟨rfl, (claim8_clear_amended stZero "c").2 rfl⟩⟩

/-! ## Claim theorems: reply parsing -/

def Json.isStr : Json → Bool
  | Json.str _ => true
  | _ => false

theorem filterNonBlank_map_str (ss : List String) :
    filterNonBlank (ss.map Json.str) =
      some (ss.filter (fun s => !jsTrimEmpty s)) := by
  induction ss with
  | nil => simp [filterNonBlank]
  | cons s rest ih =>
    by_cases h : jsTrimEmpty s <;>
      simp [filterNonBlank, ih, List.filter_cons, h]

theorem filterNonBlank_eq_none (xs : List Json)
    (h : ∃ x ∈ xs, x.isStr = false) : filterNonBlank xs = none := by
  induction xs with
  | nil => simp at h
  | cons x rest ih =>
    obtain ⟨y, hy, hys⟩ := h
    cases x with
    | str s =>
      rcases List.mem_cons.1 hy with heq | hmem
      · subst heq; simp [Json.isStr] at hys
      · simp [filterNonBlank, ih ⟨y, hmem, hys⟩]
    | null => simp [filterNonBlank]
    | bool b => simp [filterNonBlank]
    | num m e => simp [filterNonBlank]
    | arr elems => simp [filterNonBlank]
    | obj fields => simp [filterNonBlank]

/-- C2.  Reply parsing of a raw response string yields the entries of the
`replies` array (with blank / whitespace-only entries removed) when the
string parses as JSON to an object whose `replies` field is an array of
strings; on JSON parse failure, or valid JSON without an array `replies`
field, the whole raw string becomes the single reply.  The four concrete
round trips of the specification are included (literal braces are
written `\x7b`/`\x7d`).  An array holding a non-string entry makes the
filter throw and also degrades to the raw fallback — that implicit case
is claim C10. -/
theorem claim2_reply_parsing :
    (∀ raw : String, Json.parse raw = none →
      parseReplyMessages raw = [raw]) ∧
    (∀ (raw : String) (j : Json), Json.parse raw = some j →
      repliesField j = none → parseReplyMessages raw = [raw]) ∧
    (∀ (raw : String) (j : Json) (ss : List String),
      Json.parse raw = some j → repliesField j = some (ss.map Json.str) →
      parseReplyMessages raw = ss.filter (fun s => !jsTrimEmpty s)) ∧
    parseReplyMessages "\x7b\"replies\":[\"A\",\"B\"]\x7d" = ["A", "B"] ∧
    parseReplyMessages "hello" = ["hello"] ∧
    parseReplyMessages "\x7b\"replies\":[\"\",\"  \",\"C\"]\x7d" = ["C"] ∧
    parseReplyMessages "\x7b\"foo\":1\x7d" = ["\x7b\"foo\":1\x7d"] := by
  refine ⟨?_, ?_, ?_, rfl, rfl, rfl, rfl⟩
  · intro raw h
    simp [parseReplyMessages, classifyReply, h]
  · intro raw j h1 h2
    simp [parseReplyMessages, classifyReply, h1, h2]
  · intro raw j ss h1 h2
    simp [parseReplyMessages, classifyReply, h1, h2, filterNonBlank_map_str]

theorem claim2_witness : parseReplyMessages "hello" = ["hello"] :=
  claim2_reply_parsing.1 "hello" rfl

theorem chats_incrementUnreadCount (st : Store) (contactId : String)
    (n : Nat) : (incrementUnreadCount st contactId n).chats = st.chats := rfl

/-- C10.  When the raw response parses as JSON to an object whose
`replies` field is an array containing at least one non-string entry,
parsing does not fail and does not use the array: the throwing filter is
caught and the entire raw string becomes the single reply, so a
successful generation appends exactly one assistant message (and one
unread) for that conversation. -/
theorem claim10_nonstring_fallback (env : GenEnv) (st : Store)
    (contactId raw : String) (j : Json) (xs : List Json)
    (hcall : callGlobalAiApi st env.outcome env.nowLocale contactId =
      .ok (JsVal.json (Json.str raw)))
    (hparse : Json.parse raw = some j)
    (hfield : repliesField j = some xs)
    (hnonstr : ∃ x ∈ xs, x.isStr = false) :
    parseReplyMessages raw = [raw] ∧
    lookupKey (triggerGlobalAiReply env st contactId).chats contactId =
      some ((lookupKey st.chats contactId).getD [] ++
        [Message.mk (env.mkId 0) "assistant" (JsVal.json (Json.str raw))
          env.now]) ∧
    readCount (triggerGlobalAiReply env st contactId).unreadCounts
        contactId =
      readCount st.unreadCounts contactId + 1 := by
  have hclass : classifyReply raw = ReplyShape.rawFallback := by
    simp [classifyReply, hparse, hfield, filterNonBlank_eq_none xs hnonstr]
  have hpv : parseReplyValues (JsVal.json (Json.str raw)) =
      [JsVal.json (Json.str raw)] := by
    simp [parseReplyValues, jsvalToString, jsToString, hclass]
  refine ⟨by simp [parseReplyMessages, hclass], ?_, ?_⟩
  · simp [triggerGlobalAiReply, hcall, hpv, List.enum,
      chats_incrementUnreadCount, lookupKey_setKey_self]
  · simp [triggerGlobalAiReply, hcall, hpv, List.enum, readCount_increment]

/-- Fixtures for the concrete worker runs: a contact "a" with proactive
messaging on and one user message at time 0, and a configured API. -/
def contactA : Contact := ⟨"a", some "A", some "p", none⟩

def contactB : Contact := ⟨"b", some "B", none, none⟩

def msgHey : Message := ⟨1, "user", JsVal.json (Json.str "hey"), 0⟩

def okBodyOf (content : String) : Json :=
  Json.obj [("choices", Json.arr
    [Json.obj [("message", Json.obj [("content", Json.str content)])]])]

/-- The raw response of claim C10's witness: a `replies` array holding
the number 1. -/
def rawNS : String := "\x7b\"replies\":[1]\x7d"

def stA : Store :=
  ⟨[("a", ⟨true⟩)], [contactA], [("a", [msgHey])], [],
    some "http://x", some "k", some "m", none, none⟩

def genEnvNS : GenEnv :=
  ⟨300001, "t", fun k => k,
    FetchOutcome.response true "OK" (some (okBodyOf rawNS))⟩

theorem claim10_witness :
    parseReplyMessages rawNS = [rawNS] ∧
    lookupKey (triggerGlobalAiReply genEnvNS stA "a").chats "a" =
      some ((lookupKey stA.chats "a").getD [] ++
        [Message.mk 0 "assistant" (JsVal.json (Json.str rawNS)) 300001]) ∧
    readCount (triggerGlobalAiReply genEnvNS stA "a").unreadCounts "a" =
      readCount stA.unreadCounts "a" + 1 := by
  have h := claim10_nonstring_fallback genEnvNS stA "a" rawNS
    (Json.obj [("replies", Json.arr [Json.num 1 0])]) [Json.num 1 0]
    rfl rfl rfl ⟨Json.num 1 0, by simp, rfl⟩
  exact h

/-! ## Characterization of the per-conversation scan step -/

/-- The eligibility condition of lines 62–70, as one boolean. -/
def dueB (now : Nat) (allSettings : List (String × Settings))
    (allChats : List (String × List Message)) (c : Contact) : Bool :=
  match lookupKey allSettings c.id with
  | none => false
  | some s =>
    s.proactive &&
      (match ((lookupKey allChats c.id).getD []).getLast? with
       | none => false
       | some m =>
         (m.role == "user") && decide (now - m.timestamp > PROACTIVE_REPLY_DELAY))

/-- The admitted branch of the tick loop: set the flag, run (and await)
the generation, schedule the flag removal. -/
def admittedStep (env : TickEnv) (ws : WorkerState) (contactId : String) :
    WorkerState × List Event :=
  let flag := processingFlag contactId
  let ws1 := { ws with session := flag :: ws.session }
  let genEnv : GenEnv :=
    { now := env.now, nowLocale := env.nowLocale
      mkId := env.mkId contactId, outcome := env.fetchFor contactId }
  let store2 := triggerGlobalAiReply genEnv ws1.store contactId
  ({ ws1 with
      store := store2
      timeouts := ws1.timeouts ++ [(flag, COOLDOWN_MS)] },
   [Event.due contactId, Event.genStart contactId, Event.genFinish contactId])

theorem processContact_char (env : TickEnv)
    (allSettings : List (String × Settings))
    (allChats : List (String × List Message)) (ws : WorkerState)
    (c : Contact) :
    processContact env allSettings allChats ws c =
      if dueB env.now allSettings allChats c then
        (if processingFlag c.id ∈ ws.session then
          (ws, [Event.due c.id, Event.guardSkip c.id])
         else admittedStep env ws c.id)
      else (ws, []) := by
  cases hl : lookupKey allSettings c.id with
  | none => simp [processContact, dueB, hl]
  | some s =>
    cases hp : s.proactive with
    | false => simp [processContact, dueB, hl, hp]
    | true =>
      cases hm : ((lookupKey allChats c.id).getD []).getLast? with
      | none => simp [processContact, dueB, hl, hp, hm]
      | some m =>
        by_cases hr : m.role = "user"
        · by_cases ht : env.now - m.timestamp > PROACTIVE_REPLY_DELAY
          · by_cases hf : processingFlag c.id ∈ ws.session <;>
              simp [processContact, dueB, admittedStep, hl, hp, hm, hr, ht, hf]
          · simp [processContact, dueB, hl, hp, hm, hr, ht]
        · simp [processContact, dueB, hl, hp, hm, hr]

theorem due_mem_iff (env : TickEnv) (allSettings : List (String × Settings))
    (allChats : List (String × List Message)) (ws : WorkerState)
    (c : Contact) :
    Event.due c.id ∈ (processContact env allSettings allChats ws c).2 ↔
      dueB env.now allSettings allChats c = true := by
  rw [processContact_char]
  by_cases hd : dueB env.now allSettings allChats c
  · by_cases hf : processingFlag c.id ∈ ws.session <;>
      simp [hd, hf, admittedStep]
  · simp [hd]

/-! ## Fixtures for the concrete scheduler runs -/

def stAB : Store :=
  ⟨[("a", ⟨true⟩), ("b", ⟨true⟩)], [contactA, contactB],
    [("a", [msgHey]), ("b", [msgHey])], [],
    some "http://x", some "k", some "m", none, none⟩

def envOkAB : TickEnv :=
  ⟨false, 300001, "t",
    fun _ => FetchOutcome.response true "OK" (some (okBodyOf "hi")),
    fun _ k => k⟩

def wsAB : WorkerState := ⟨stAB, [], []⟩

def envBoundary : TickEnv := { envOkAB with now := 300000 }

def envHiddenF : TickEnv := { envOkAB with hidden := true }

/-! ## Claim theorems: scanner and guard -/

/-- C1.  A conversation is marked due by the scan step exactly when its
settings entry is present with the proactive flag enabled, its transcript
is non-empty, the last message is human-authored (role "user" in the
stored data), and `now` minus that message's timestamp strictly exceeds
the 300000 ms idle threshold; at exact equality with the threshold it is
not due. -/
theorem claim1_scanner_due_iff (env : TickEnv)
    (allSettings : List (String × Settings))
    (allChats : List (String × List Message)) (ws : WorkerState)
    (c : Contact) :
    (Event.due c.id ∈ (processContact env allSettings allChats ws c).2 ↔
      ((∃ s, lookupKey allSettings c.id = some s ∧ s.proactive = true) ∧
       (∃ m, ((lookupKey allChats c.id).getD []).getLast? = some m ∧
         m.role = "user" ∧
         env.now - m.timestamp > PROACTIVE_REPLY_DELAY))) ∧
    (∀ m, ((lookupKey allChats c.id).getD []).getLast? = some m →
      env.now - m.timestamp = PROACTIVE_REPLY_DELAY →
      Event.due c.id ∉ (processContact env allSettings allChats ws c).2) := by
  constructor
  · rw [due_mem_iff]
    cases hl : lookupKey allSettings c.id with
    | none => simp [dueB, hl]
    | some s =>
      cases hm : ((lookupKey allChats c.id).getD []).getLast? with
      | none => simp [dueB, hl, hm]
      | some m => simp [dueB, hl, hm, Bool.and_eq_true, and_assoc]
  · intro m hm heq hmem
    rw [due_mem_iff] at hmem
    cases hl : lookupKey allSettings c.id with
    | none => simp [dueB, hl] at hmem
    | some s =>
      simp [dueB, hl, hm, Bool.and_eq_true] at hmem
      omega

theorem claim1_witness :
    Event.due contactA.id ∈
      (processContact envOkAB stAB.chatSettings stAB.chats wsAB contactA).2 ∧
    Event.due contactA.id ∉
      (processContact envBoundary stAB.chatSettings stAB.chats wsAB
        contactA).2 :=
  ⟨(claim1_scanner_due_iff envOkAB stAB.chatSettings stAB.chats wsAB
      contactA).1.mpr
    ⟨⟨⟨true⟩, rfl, rfl⟩, ⟨msgHey, rfl, rfl, by decide⟩⟩,
   (claim1_scanner_due_iff envBoundary stAB.chatSettings stAB.chats wsAB
      contactA).2 msgHey rfl rfl⟩

/-- C9.  On a tick during which the page is hidden, the handler returns
immediately: the state is untouched and the trace is empty — in
particular no maps are loaded (no `loadAll` event), nothing is marked
due, and no flag is set. -/
theorem claim9_hidden_noop (env : TickEnv) (ws : WorkerState)
    (h : env.hidden = true) : tick env ws = (ws, []) := by
  simp [tick, h]

theorem claim9_witness : tick envHiddenF wsAB = (wsAB, []) :=
  claim9_hidden_noop envHiddenF wsAB rfl

theorem admitMany_flagged (k : Nat) (session : List String)
    (contactId : String) (h : processingFlag contactId ∈ session) :
    admitMany k session contactId = (List.replicate k false, session) := by
  induction k with
  | zero => simp [admitMany]
  | succ n ih => simp [admitMany, tryAdmit, h, ih, List.replicate_succ]

theorem releaseFlag_cons (session : List String) (contactId : String)
    (h : processingFlag contactId ∉ session) :
    releaseFlag (processingFlag contactId :: session) contactId = session := by
  unfold releaseFlag
  rw [List.filter_cons]
  simp only [bne_self_eq_false, Bool.false_eq_true, if_false]
  exact List.filter_eq_self.2 fun a ha => by
    simp only [bne_iff_ne, ne_eq]
    exact fun e => h (e ▸ ha)

/-- C5.  Guard admission is exclusive within a cooldown window: with the
flag unset, an admission attempt sets it and returns true, and every
further attempt returns false and changes nothing until the flag is
cleared by `release`, after which admission succeeds again; moreover the
scan step performs no state change at all on a conversation whose flag is
set. -/
theorem claim5_guard_exclusive (session : List String) (contactId : String) :
    (processingFlag contactId ∉ session →
      tryAdmit session contactId =
        (true, processingFlag contactId :: session) ∧
      (∀ k, admitMany (k + 1) session contactId =
        (true :: List.replicate k false,
          processingFlag contactId :: session)) ∧
      tryAdmit (releaseFlag (processingFlag contactId :: session) contactId)
          contactId =
        (true, processingFlag contactId :: session)) ∧
    (processingFlag contactId ∈ session →
      tryAdmit session contactId = (false, session)) ∧
    (∀ (env : TickEnv) (allSettings : List (String × Settings))
      (allChats : List (String × List Message)) (ws : WorkerState)
      (c : Contact), processingFlag c.id ∈ ws.session →
      (processContact env allSettings allChats ws c).1 = ws) := by
  refine ⟨fun h => ⟨by simp [tryAdmit, h], fun k => ?_, ?_⟩,
    fun h => by simp [tryAdmit, h], ?_⟩
  · simp [admitMany, tryAdmit, h,
      admitMany_flagged k (processingFlag contactId :: session) contactId
        (List.mem_cons_self _ _)]
  · rw [releaseFlag_cons session contactId h]
    simp [tryAdmit, h]
  · intro env allSettings allChats ws c hf
    rw [processContact_char]
    by_cases hd : dueB env.now allSettings allChats c <;> simp [hd, hf]

theorem claim5_witness :
    tryAdmit [] "c" = (true, [processingFlag "c"]) ∧
    admitMany 3 [] "c" =
      (true :: List.replicate 2 false, [processingFlag "c"]) ∧
    tryAdmit [processingFlag "c"] "c" = (false, [processingFlag "c"]) ∧
    tryAdmit (releaseFlag [processingFlag "c"] "c") "c" =
      (true, [processingFlag "c"]) :=
  ⟨((claim5_guard_exclusive [] "c").1 (by simp)).1,
   ((claim5_guard_exclusive [] "c").1 (by simp)).2.1 2,
   (claim5_guard_exclusive [processingFlag "c"] "c").2.1
     (List.mem_cons_self _ _),
   ((claim5_guard_exclusive [] "c").1 (by simp)).2.2⟩

/-! ## Session-flag monotonicity within a tick -/

theorem processContact_session_cases (env : TickEnv)
    (allSettings : List (String × Settings))
    (allChats : List (String × List Message)) (ws : WorkerState)
    (c : Contact) :
    (processContact env allSettings allChats ws c).1.session = ws.session ∨
    (processContact env allSettings allChats ws c).1.session =
      processingFlag c.id :: ws.session := by
  rw [processContact_char]
  by_cases hd : dueB env.now allSettings allChats c
  · by_cases hf : processingFlag c.id ∈ ws.session
    · left; simp [hd, hf]
    · right; simp [hd, hf, admittedStep]
  · left; simp [hd]

theorem runContacts_session_mono (env : TickEnv)
    (allSettings : List (String × Settings))
    (allChats : List (String × List Message)) (cs : List Contact)
    (ws : WorkerState) (k : String) (h : k ∈ ws.session) :
    k ∈ (runContacts env allSettings allChats ws cs).1.session := by
  induction cs generalizing ws with
  | nil => simpa [runContacts] using h
  | cons c rest ih =>
    rw [runContacts]
    apply ih
    rcases processContact_session_cases env allSettings allChats ws c with
      hc | hc
    · rw [hc]; exact h
    · rw [hc]; exact List.mem_cons_of_mem _ h

theorem tick_session_mono (env : TickEnv) (ws : WorkerState) (k : String)
    (h : k ∈ ws.session) : k ∈ (tick env ws).1.session := by
  by_cases hh : env.hidden
  · simpa [tick, hh] using h
  · simpa [tick, hh] using
      runContacts_session_mono env ws.store.chatSettings ws.store.chats
        ws.store.contacts ws k h

/-- C4.  For an admitted conversation the scan step sets the guard flag
and — whatever the generation attempt's outcome, success or failure —
schedules the flag's removal exactly 60000 ms after the attempt
finishes, not immediately: the flag is still set in the post-tick state
(and no tick ever removes a flag; only the timeout firing does). -/
theorem claim4_cooldown_scheduled (env : TickEnv)
    (allSettings : List (String × Settings))
    (allChats : List (String × List Message)) (ws : WorkerState)
    (c : Contact) (hdue : dueB env.now allSettings allChats c = true)
    (hfree : processingFlag c.id ∉ ws.session) :
    (processContact env allSettings allChats ws c).1.session =
      processingFlag c.id :: ws.session ∧
    (processContact env allSettings allChats ws c).1.timeouts =
      ws.timeouts ++ [(processingFlag c.id, 60000)] ∧
    (processingFlag c.id, 60000) ∈
      (processContact env allSettings allChats ws c).1.timeouts ∧
    (processContact env allSettings allChats ws c).2 =
      [Event.due c.id, Event.genStart c.id, Event.genFinish c.id] ∧
    (∀ (env' : TickEnv) (ws' : WorkerState) (k : String),
      k ∈ ws'.session → k ∈ (tick env' ws').1.session) := by
  rw [processContact_char, if_pos hdue, if_neg hfree]
  refine ⟨by simp [admittedStep], by simp [admittedStep, COOLDOWN_MS], ?_,
    by simp [admittedStep], tick_session_mono⟩
  simp [admittedStep, COOLDOWN_MS]

theorem claim4_witness :
    dueB envOkAB.now stAB.chatSettings stAB.chats contactA = true ∧
    (processContact envOkAB stAB.chatSettings stAB.chats wsAB
        contactA).1.session = [processingFlag "a"] ∧
    (processContact envOkAB stAB.chatSettings stAB.chats wsAB
        contactA).1.timeouts = [(processingFlag "a", 60000)] := by
  have h := claim4_cooldown_scheduled envOkAB stAB.chatSettings stAB.chats
    wsAB contactA (by decide) (by simp [wsAB])
  exact ⟨by decide, h.1, h.2.1⟩

/-! ## Decomposition of the contact loop -/

theorem runContacts_cons_fst (env : TickEnv)
    (allSettings : List (String × Settings))
    (allChats : List (String × List Message)) (ws : WorkerState)
    (c : Contact) (cs : List Contact) :
    (runContacts env allSettings allChats ws (c :: cs)).1 =
      (runContacts env allSettings allChats
        (processContact env allSettings allChats ws c).1 cs).1 := by
  simp [runContacts]

theorem runContacts_cons_snd (env : TickEnv)
    (allSettings : List (String × Settings))
    (allChats : List (String × List Message)) (ws : WorkerState)
    (c : Contact) (cs : List Contact) :
    (runContacts env allSettings allChats ws (c :: cs)).2 =
      (processContact env allSettings allChats ws c).2 ++
      (runContacts env allSettings allChats
        (processContact env allSettings allChats ws c).1 cs).2 := by
  simp [runContacts]

theorem runContacts_append_fst (env : TickEnv)
    (allSettings : List (String × Settings))
    (allChats : List (String × List Message)) (xs ys : List Contact)
    (ws : WorkerState) :
    (runContacts env allSettings allChats ws (xs ++ ys)).1 =
      (runContacts env allSettings allChats
        (runContacts env allSettings allChats ws xs).1 ys).1 := by
  induction xs generalizing ws with
  | nil => simp [runContacts]
  | cons a rest ih => simp [runContacts, ih]

theorem runContacts_append_snd (env : TickEnv)
    (allSettings : List (String × Settings))
    (allChats : List (String × List Message)) (xs ys : List Contact)
    (ws : WorkerState) :
    (runContacts env allSettings allChats ws (xs ++ ys)).2 =
      (runContacts env allSettings allChats ws xs).2 ++
      (runContacts env allSettings allChats
        (runContacts env allSettings allChats ws xs).1 ys).2 := by
  induction xs generalizing ws with
  | nil => simp [runContacts]
  | cons a rest ih => simp [runContacts, ih]

theorem processContact_no_loadAll (env : TickEnv)
    (allSettings : List (String × Settings))
    (allChats : List (String × List Message)) (ws : WorkerState)
    (c : Contact) :
    Event.loadAll ∉ (processContact env allSettings allChats ws c).2 := by
  rw [processContact_char]
  by_cases hd : dueB env.now allSettings allChats c
  · by_cases hf : processingFlag c.id ∈ ws.session <;>
      simp [hd, hf, admittedStep]
  · simp [hd]

theorem runContacts_count_loadAll (env : TickEnv)
    (allSettings : List (String × Settings))
    (allChats : List (String × List Message)) (cs : List Contact)
    (ws : WorkerState) :
    (runContacts env allSettings allChats ws cs).2.count Event.loadAll = 0 := by
  induction cs generalizing ws with
  | nil => simp [runContacts]
  | cons c rest ih =>
    rw [runContacts_cons_snd, List.count_append,
      List.count_eq_zero.2 (processContact_no_loadAll env allSettings
        allChats ws c), ih]

theorem tick_count_loadAll (env : TickEnv) (ws : WorkerState) :
    (tick env ws).2.count Event.loadAll = if env.hidden then 0 else 1 := by
  by_cases hh : env.hidden
  · simp [tick, hh]
  · simp [tick, hh, runContacts_count_loadAll]

/-- The scan decisions of a tick depend only on the snapshot and the
guard flags, never on a generation attempt's outcome or the live store:
two runs over the same snapshot, with the same clock and the same flags,
produce identical event traces and identical final flag sets. -/
theorem processContact_ext (env₁ env₂ : TickEnv)
    (allSettings : List (String × Settings))
    (allChats : List (String × List Message)) (ws₁ ws₂ : WorkerState)
    (c : Contact) (hnow : env₁.now = env₂.now)
    (hsess : ws₁.session = ws₂.session) :
    (processContact env₁ allSettings allChats ws₁ c).2 =
      (processContact env₂ allSettings allChats ws₂ c).2 ∧
    (processContact env₁ allSettings allChats ws₁ c).1.session =
      (processContact env₂ allSettings allChats ws₂ c).1.session := by
  have hd : dueB env₁.now allSettings allChats c =
      dueB env₂.now allSettings allChats c := by rw [hnow]
  rw [processContact_char, processContact_char, hd]
  by_cases h : dueB env₂.now allSettings allChats c
  · rw [if_pos h, if_pos h]
    by_cases hf : processingFlag c.id ∈ ws₂.session
    · rw [if_pos (by rw [hsess]; exact hf), if_pos hf]
      exact ⟨rfl, hsess⟩
    · rw [if_neg (by rw [hsess]; exact hf), if_neg hf]
      exact ⟨rfl, by simp [admittedStep, hsess]⟩
  · rw [if_neg h, if_neg h]
    exact ⟨rfl, hsess⟩

theorem runContacts_ext (env₁ env₂ : TickEnv)
    (allSettings : List (String × Settings))
    (allChats : List (String × List Message)) (cs : List Contact)
    (ws₁ ws₂ : WorkerState) (hnow : env₁.now = env₂.now)
    (hsess : ws₁.session = ws₂.session) :
    (runContacts env₁ allSettings allChats ws₁ cs).2 =
      (runContacts env₂ allSettings allChats ws₂ cs).2 ∧
    (runContacts env₁ allSettings allChats ws₁ cs).1.session =
      (runContacts env₂ allSettings allChats ws₂ cs).1.session := by
  induction cs generalizing ws₁ ws₂ with
  | nil => simpa [runContacts] using hsess
  | cons c rest ih =>
    have hc := processContact_ext env₁ env₂ allSettings allChats ws₁ ws₂ c
      hnow hsess
    have hr := ih (processContact env₁ allSettings allChats ws₁ c).1
      (processContact env₂ allSettings allChats ws₂ c).1 hc.2
    rw [runContacts_cons_snd, runContacts_cons_snd, runContacts_cons_fst,
      runContacts_cons_fst]
    exact ⟨by rw [hc.1, hr.1], hr.2⟩

/-! ## Claim theorem: failure handling and isolation -/

/-- C3.  Every failure of the external completion call is contained:
(1) with a missing or empty endpoint or key the call aborts with a
configuration error before any network activity, whatever the fetch
would have produced; (2) whenever the call errors, the catch in
`triggerGlobalAiReply` leaves the whole store — transcript and unread
ledger included — unchanged; (3–6) a rejected fetch, a non-success
status, a non-JSON success body, and a success body on which the
`choices[0].message.content` drill-down throws all produce such an
error; (7) the scan and admission decisions of a tick do not depend on
fetch outcomes or the live store, so one conversation's failure cannot
keep the remaining conversations of the same tick from being processed;
(8) ticks keep firing: over any schedule, every non-hidden tick performs
its bulk load, exactly once each. -/
theorem claim3_failure_isolated :
    (∀ (st : Store) (o : FetchOutcome) (loc cid : String),
      (jsFalsyStr st.apiUrl || jsFalsyStr st.apiKey) = true →
      callGlobalAiApi st o loc cid = Except.error "API not configured") ∧
    (∀ (env : GenEnv) (st : Store) (cid e : String),
      callGlobalAiApi st env.outcome env.nowLocale cid = Except.error e →
      triggerGlobalAiReply env st cid = st) ∧
    (∀ (st : Store) (loc cid msg : String),
      ∃ e, callGlobalAiApi st (FetchOutcome.reject msg) loc cid =
        Except.error e) ∧
    (∀ (st : Store) (loc cid stx : String) (body : Option Json),
      ∃ e, callGlobalAiApi st (FetchOutcome.response false stx body) loc
        cid = Except.error e) ∧
    (∀ (st : Store) (loc cid stx : String),
      ∃ e, callGlobalAiApi st (FetchOutcome.response true stx none) loc
        cid = Except.error e) ∧
    (∀ (st : Store) (loc cid stx : String) (data : Json),
      extractContent data = Except.error () →
      ∃ e, callGlobalAiApi st (FetchOutcome.response true stx (some data))
        loc cid = Except.error e) ∧
    (∀ (env₁ env₂ : TickEnv) (allSettings : List (String × Settings))
      (allChats : List (String × List Message)) (ws₁ ws₂ : WorkerState)
      (cs : List Contact), env₁.now = env₂.now →
      ws₁.session = ws₂.session →
      (runContacts env₁ allSettings allChats ws₁ cs).2 =
        (runContacts env₂ allSettings allChats ws₂ cs).2) ∧
    (∀ (es : List TickEnv) (ws : WorkerState),
      (runTicks es ws).2.count Event.loadAll =
        (es.filter (fun e => !e.hidden)).length) := by
  refine ⟨?_, ?_, ?_, ?_, ?_, ?_, ?_, ?_⟩
  · intro st o loc cid hc
    simp [callGlobalAiApi, hc]
  · intro env st cid e hcall
    simp [triggerGlobalAiReply, hcall]
  · intro st loc cid msg
    by_cases hc : (jsFalsyStr st.apiUrl || jsFalsyStr st.apiKey) = true
    · exact ⟨"API not configured", by simp [callGlobalAiApi, hc]⟩
    · cases hf : st.contacts.find? (fun c => c.id == cid) with
      | none =>
        exact ⟨"Contact with id " ++ cid ++ " not found",
          by simp [callGlobalAiApi, hc, hf]⟩
      | some cd => exact ⟨msg, by simp [callGlobalAiApi, hc, hf]⟩
  · intro st loc cid stx body
    by_cases hc : (jsFalsyStr st.apiUrl || jsFalsyStr st.apiKey) = true
    · exact ⟨"API not configured", by simp [callGlobalAiApi, hc]⟩
    · cases hf : st.contacts.find? (fun c => c.id == cid) with
      | none =>
        exact ⟨"Contact with id " ++ cid ++ " not found",
          by simp [callGlobalAiApi, hc, hf]⟩
      | some cd =>
        cases body with
        | none =>
          exact ⟨"SyntaxError: unexpected end of JSON input",
            by simp [callGlobalAiApi, hc, hf]⟩
        | some err =>
          exact ⟨errMessageOf err stx, by simp [callGlobalAiApi, hc, hf]⟩
  · intro st loc cid stx
    by_cases hc : (jsFalsyStr st.apiUrl || jsFalsyStr st.apiKey) = true
    · exact ⟨"API not configured", by simp [callGlobalAiApi, hc]⟩
    · cases hf : st.contacts.find? (fun c => c.id == cid) with
      | none =>
        exact ⟨"Contact with id " ++ cid ++ " not found",
          by simp [callGlobalAiApi, hc, hf]⟩
      | some cd =>
        exact ⟨"SyntaxError: unexpected end of JSON input",
          by simp [callGlobalAiApi, hc, hf]⟩
  · intro st loc cid stx data hx
    by_cases hc : (jsFalsyStr st.apiUrl || jsFalsyStr st.apiKey) = true
    · exact ⟨"API not configured", by simp [callGlobalAiApi, hc]⟩
    · cases hf : st.contacts.find? (fun c => c.id == cid) with
      | none =>
        exact ⟨"Contact with id " ++ cid ++ " not found",
          by simp [callGlobalAiApi, hc, hf]⟩
      | some cd =>
        exact ⟨"TypeError: cannot read properties",
          by simp [callGlobalAiApi, hc, hf, hx]⟩
  · intro env₁ env₂ allSettings allChats ws₁ ws₂ cs hnow hsess
    exact (runContacts_ext env₁ env₂ allSettings allChats cs ws₁ ws₂ hnow
      hsess).1
  · intro es ws
    induction es generalizing ws with
    | nil => simp [runTicks]
    | cons e rest ih =>
      by_cases hh : e.hidden
      · simp [runTicks, List.count_append, tick_count_loadAll, hh,
          List.filter_cons, ih]
      · simp [runTicks, List.count_append, tick_count_loadAll, hh,
          List.filter_cons, ih]
        omega

def stNoKey : Store := { stA with apiKey := none }

def genEnvReject : GenEnv :=
  ⟨300001, "t", fun k => k, FetchOutcome.reject "down"⟩

def envFailAB : TickEnv :=
  { envOkAB with fetchFor := fun _ => FetchOutcome.reject "down" }

theorem claim3_witness :
    callGlobalAiApi stNoKey (FetchOutcome.reject "x") "t" "a" =
      Except.error "API not configured" ∧
    triggerGlobalAiReply genEnvReject stA "a" = stA ∧
    (runContacts envOkAB stAB.chatSettings stAB.chats wsAB
        stAB.contacts).2 =
      (runContacts envFailAB stAB.chatSettings stAB.chats wsAB
        stAB.contacts).2 :=
  ⟨claim3_failure_isolated.1 stNoKey (FetchOutcome.reject "x") "t" "a" rfl,
   claim3_failure_isolated.2.1 genEnvReject stA "a" "down" rfl,
   claim3_failure_isolated.2.2.2.2.2.2.1 envOkAB envFailAB
     stAB.chatSettings stAB.chats wsAB wsAB stAB.contacts rfl rfl⟩

/-! ## Claim theorems: same-tick sequencing (C6) -/

/-- An attempt that starts within a scan step also finishes within it:
the generation is awaited, and the `finally` runs before the loop moves
on. -/
theorem genFinish_of_genStart (env : TickEnv)
    (allSettings : List (String × Settings))
    (allChats : List (String × List Message)) (ws : WorkerState)
    (c : Contact)
    (h : Event.genStart c.id ∈ (processContact env allSettings allChats
      ws c).2) :
    Event.genFinish c.id ∈ (processContact env allSettings allChats
      ws c).2 := by
  rw [processContact_char] at h ⊢
  by_cases hd : dueB env.now allSettings allChats c
  · by_cases hf : processingFlag c.id ∈ ws.session
    · simp [hd, hf] at h
    · simp [hd, hf, admittedStep]
  · simp [hd] at h

/-- C6 counterexample.  The claim says generation attempts for distinct
conversations admitted in the same tick are fire-and-forget and may
overlap, with no ordering between them; but the loop `await`s each
attempt (`await triggerGlobalAiReply(contactId)`), so they are strictly
sequential: at this concrete state with two due conversations the whole
tick trace is ordered — conversation "a"'s attempt finishes before
conversation "b"'s starts. -/
theorem claim6_counterexample :
    (tick envOkAB wsAB).2 =
      [Event.loadAll, Event.due "a", Event.genStart "a",
       Event.genFinish "a", Event.due "b", Event.genStart "b",
       Event.genFinish "b"] := by
  decide

/-- C6 (amended).  The tick handler awaits each generation attempt in
turn, so attempts admitted in the same tick run strictly sequentially in
the stored contact-list order rather than overlapping: whenever two
conversations at earlier and later positions both start a generation
attempt in one visible tick, the trace splits into a prefix containing
the earlier conversation's finish and a suffix containing the later
conversation's start. -/
theorem claim6_sequential_amended (env : TickEnv) (ws : WorkerState)
    (cs1 cs2 cs3 : List Contact) (c c' : Contact)
    (hvis : env.hidden = false)
    (hcs : ws.store.contacts = cs1 ++ c :: (cs2 ++ c' :: cs3))
    (h1 : Event.genStart c.id ∈ (processContact env ws.store.chatSettings
      ws.store.chats (runContacts env ws.store.chatSettings ws.store.chats
        ws cs1).1 c).2)
    (h2 : Event.genStart c'.id ∈ (processContact env
      ws.store.chatSettings ws.store.chats
      (runContacts env ws.store.chatSettings ws.store.chats ws
        (cs1 ++ c :: cs2)).1 c').2) :
    ∃ A B, (tick env ws).2 = A ++ B ∧
      Event.genFinish c.id ∈ A ∧ Event.genStart c'.id ∈ B := by
  set S := ws.store.chatSettings
  set C := ws.store.chats
  set w1 := (runContacts env S C ws cs1).1 with hw1
  have hw2 : (runContacts env S C ws (cs1 ++ c :: cs2)).1 =
      (runContacts env S C (processContact env S C w1 c).1 cs2).1 := by
    rw [runContacts_append_fst, runContacts_cons_fst]
  have hsplit : (runContacts env S C ws
      (cs1 ++ c :: (cs2 ++ c' :: cs3))).2 =
      ((runContacts env S C ws cs1).2 ++
        (processContact env S C w1 c).2) ++
      ((runContacts env S C (processContact env S C w1 c).1 cs2).2 ++
        ((processContact env S C
          (runContacts env S C (processContact env S C w1 c).1 cs2).1
            c').2 ++
         (runContacts env S C (processContact env S C
           (runContacts env S C (processContact env S C w1 c).1 cs2).1
             c').1 cs3).2)) := by
    rw [runContacts_append_snd, runContacts_cons_snd,
      runContacts_append_snd, runContacts_cons_snd]
    simp [List.append_assoc]
  have htick : (tick env ws).2 =
      Event.loadAll :: (runContacts env S C ws ws.store.contacts).2 := by
    simp [tick, hvis]
  rw [hcs, hsplit] at htick
  refine ⟨Event.loadAll :: ((runContacts env S C ws cs1).2 ++
      (processContact env S C w1 c).2),
    (runContacts env S C (processContact env S C w1 c).1 cs2).2 ++
      ((processContact env S C
        (runContacts env S C (processContact env S C w1 c).1 cs2).1
          c').2 ++
       (runContacts env S C (processContact env S C
         (runContacts env S C (processContact env S C w1 c).1 cs2).1
           c').1 cs3).2), ?_, ?_, ?_⟩
  · rw [htick]
    exact (List.cons_append _ _ _).symm
  · exact List.mem_cons_of_mem _ (List.mem_append_right _
      (genFinish_of_genStart env S C w1 c h1))
  · rw [hw2] at h2
    exact List.mem_append_right _ (List.mem_append_left _ h2)

theorem claim6_witness :
    ∃ A B, (tick envOkAB wsAB).2 = A ++ B ∧
      Event.genFinish contactA.id ∈ A ∧ Event.genStart contactB.id ∈ B :=
  claim6_sequential_amended envOkAB wsAB [] [] [] contactA contactB rfl rfl
    (by decide) (by decide)

end Worker
